import Mathlib

/-!
Verification of the GammaTool core: a shallow embedding of the gamma-ramp
computation (`gamma_engine.py`), the reset-to-default policy, the preset store
(`preset_manager.py`), the hotkey manager (`hotkey_manager.py`) and the hotkey
validator (`utils.py`), together with theorems settling the spec claims.

Numeric model: the Python source computes the ramp with IEEE-754 binary64
("double") arithmetic.  Every float operation is embedded as the exact rational
operation followed by `fl`, the binary64 rounding function (round to nearest,
ties to even, 53-bit mantissa; exponents in this program stay far away from
overflow and subnormals, so the unbounded-exponent model is exact).  Rationals
are represented as unnormalized numerator/denominator pairs (`Q`) so that all
arithmetic is plain integer arithmetic.
-/

namespace GammaTool

/-- Unnormalized rational number: numerator and (positive, by construction)
denominator.  Equality of `Q` values is only ever taken on canonical outputs
of `fl`; ordering and zero tests go through the cross-multiplication forms. -/
structure Q where
  n : ℤ
  d : ℕ
deriving DecidableEq

/-- Exact rational subtraction (cross multiplication, no normalization). -/
def Qsub (a b : Q) : Q := ⟨a.n * b.d - b.n * a.d, a.d * b.d⟩

/-- Exact rational addition. -/
def Qadd (a b : Q) : Q := ⟨a.n * b.d + b.n * a.d, a.d * b.d⟩

/-- Exact rational multiplication. -/
def Qmul (a b : Q) : Q := ⟨a.n * b.n, a.d * b.d⟩

/-- Strict order on unnormalized rationals (valid for positive denominators). -/
def Qlt (a b : Q) : Bool := decide (a.n * b.d < b.n * a.d)

/-- Fuel-bounded binary exponent search: for positive `q` (and enough fuel)
returns `e` with `2^e ≤ q < 2^(e+1)`.  Fuel 200 covers every magnitude that
occurs in the gamma computation. -/
def findE : ℕ → Q → ℤ
  | 0, _ => 0
  | fuel+1, q =>
    if Qlt q ⟨1, 1⟩ then findE fuel ⟨q.n * 2, q.d⟩ - 1
    else if Qlt q ⟨2, 1⟩ then 0
    else findE fuel ⟨q.n, q.d * 2⟩ + 1

/-- Round a rational to the nearest integer, ties to even. -/
def rne (x : Q) : ℤ :=
  let n0 : ℤ := x.n.ediv x.d
  let r2 : ℤ := 2 * (x.n - n0 * x.d)
  if r2 < x.d then n0
  else if (x.d : ℤ) < r2 then n0 + 1
  else if n0 % 2 = 0 then n0 else n0 + 1

/-- Multiply an unnormalized rational by an integer power of two. -/
def mulPow2 (q : Q) : ℤ → Q
  | Int.ofNat k => ⟨q.n * 2 ^ k, q.d⟩
  | Int.negSucc k => ⟨q.n, q.d * 2 ^ (k+1)⟩

/-- IEEE-754 binary64 rounding: round to nearest, ties to even, 53-bit
mantissa, unbounded exponent.  Models the rounding of every Python float
operation in `gamma_engine.py` (all values there are normal and far from
overflow, where this model agrees bit-for-bit with binary64). -/
def fl (q : Q) : Q :=
  if q.n = 0 then ⟨0, 1⟩
  else
    let a : Q := if q.n < 0 then ⟨-q.n, q.d⟩ else q
    let e : ℤ := findE 200 a
    let m : ℤ := rne (mulPow2 a (52 - e))
    let r : Q := mulPow2 ⟨m, 1⟩ (e - 52)
    if q.n < 0 then ⟨-r.n, r.d⟩ else r

/-- Python `max(0.0, min(1.0, value))` on the exact values. -/
def clamp01 (v : Q) : Q :=
  if Qlt v ⟨0, 1⟩ then ⟨0, 1⟩ else if Qlt ⟨1, 1⟩ v then ⟨1, 1⟩ else v

/-- Python `int(...)`: truncation toward zero. -/
def pyInt (q : Q) : ℤ := q.n.tdiv q.d

/-- Loop body of `GammaEngine._calculate_gamma_ramp` at index `i`: the
`(Red, Green, Blue)` ramp entry.  Each Python float operation appears as the
exact operation wrapped in `fl`:
`value = i/255.0`; `value = (value-0.5)*contrast_factor+0.5`;
`value = value*brightness_factor`; clamp; `base_value = int(value*65535)`;
then the grayscale branch and the per-channel scaling. -/
def rampPoint (brightness contrast grayscale r g b : ℕ) (i : ℕ) : ℤ × ℤ × ℤ :=
  let brightness_factor := fl ⟨brightness, 100⟩
  let contrast_factor := fl ⟨contrast, 100⟩
  let grayscale_factor := fl ⟨grayscale, 100⟩
  let value0 := fl ⟨i, 255⟩
  let value1 := fl (Qadd (fl (Qmul (fl (Qsub value0 ⟨1, 2⟩)) contrast_factor)) ⟨1, 2⟩)
  let value2 := fl (Qmul value1 brightness_factor)
  let value3 := clamp01 value2
  let base_value : ℤ := pyInt (fl (Qmul value3 ⟨65535, 1⟩))
  if Qlt ⟨0, 1⟩ grayscale_factor then
    let gray_value := fl (Qmul ⟨base_value, 1⟩ (fl (Qsub ⟨1, 1⟩ grayscale_factor)))
    (pyInt (fl (Qmul gray_value (fl ⟨r, 255⟩))),
     pyInt (fl (Qmul gray_value (fl ⟨g, 255⟩))),
     pyInt (fl (Qmul gray_value (fl ⟨b, 255⟩))))
  else
    (pyInt (fl (Qmul ⟨base_value, 1⟩ (fl ⟨r, 255⟩))),
     pyInt (fl (Qmul ⟨base_value, 1⟩ (fl ⟨g, 255⟩))),
     pyInt (fl (Qmul ⟨base_value, 1⟩ (fl ⟨b, 255⟩))))

/-- `GammaEngine._calculate_gamma_ramp`: the 256-entry three-channel table. -/
def calculate_gamma_ramp (brightness contrast grayscale r g b : ℕ) : List (ℤ × ℤ × ℤ) :=
  (List.range 256).map (rampPoint brightness contrast grayscale r g b)

/-- RGB channel values, `GammaEngine.current_rgb` / preset `rgb` dictionaries. -/
structure RGB where
  red : ℤ
  green : ℤ
  blue : ℤ
deriving DecidableEq

/-- In-memory state of `GammaEngine` (the fields touched by reset):
logical settings, the saved default ramp and the sticky capability flag. -/
structure GammaEngineState where
  current_brightness : ℤ
  current_contrast : ℤ
  current_grayscale : ℤ
  current_rgb : RGB
  default_ramp : Option (List (ℤ × ℤ × ℤ))
  gamma_ramp_supported : Bool
deriving DecidableEq

/-- `GammaEngine.reset_to_default`.  `applyOk` is the boolean outcome of the
hardware call `_apply_gamma_ramp(self._default_ramp)` (which mutates no
logical field).  Source: if unsupported, reset the in-memory fields and return
`False`; otherwise, if a default ramp was saved, apply it and reset the fields
only on success, returning the apply result; with no saved ramp return
`False`. -/
def reset_to_default (applyOk : Bool) (e : GammaEngineState) : GammaEngineState × Bool :=
  if e.gamma_ramp_supported = false then
    ({ e with current_brightness := 100, current_contrast := 100,
              current_grayscale := 0, current_rgb := ⟨255, 255, 255⟩ }, false)
  else
    match e.default_ramp with
    | some _ =>
      if applyOk then
        ({ e with current_brightness := 100, current_contrast := 100,
                  current_grayscale := 0, current_rgb := ⟨255, 255, 255⟩ }, true)
      else (e, false)
    | none => (e, false)

/-- A stored preset: settings plus hotkey, as in `presets.json`. -/
structure Preset where
  brightness : ℤ
  contrast : ℤ
  grayscale : ℤ
  rgb : RGB
  hotkey : String
deriving DecidableEq

/-- The `settings` dict argument of `save_preset`: each key may be absent
(Python `settings.get(key, default)`). -/
structure SettingsArg where
  brightness : Option ℤ
  contrast : Option ℤ
  grayscale : Option ℤ
  rgb : Option RGB
  hotkey : Option String
deriving DecidableEq

/-- The persisted document: `{"current_preset": ..., "presets": ...}`. -/
abbrev PresetDoc := Option String × List (String × Preset)

/-- In-memory state of `PresetManager` plus the content of the presets file
(`none` = no well-formed document on disk). -/
structure PresetManagerState where
  presets : List (String × Preset)
  current_preset : Option String
  file : Option PresetDoc
deriving DecidableEq

/-- Lookup in a Python dict modeled as an insertion-ordered association list. -/
def dictFind : List (String × Preset) → String → Option Preset
  | [], _ => none
  | (k, v) :: rest, name => if k = name then some v else dictFind rest name

/-- Python dict assignment `d[name] = v`: update in place when the key exists
(keeping its position), otherwise append at the end. -/
def dictSet : List (String × Preset) → String → Preset → List (String × Preset)
  | [], name, v => [(name, v)]
  | (k, w) :: rest, name, v =>
    if k = name then (k, v) :: rest else (k, w) :: dictSet rest name v

/-- Python `del d[name]`: drop the (unique) entry with that key. -/
def dictErase : List (String × Preset) → String → List (String × Preset)
  | [], _ => []
  | (k, w) :: rest, name => if k = name then rest else (k, w) :: dictErase rest name

/-- Python `d[name]['hotkey'] = hk`: mutate the hotkey of the entry in place. -/
def dictSetHotkey : List (String × Preset) → String → String → List (String × Preset)
  | [], _, _ => []
  | (k, w) :: rest, name, hk =>
    if k = name then (k, { w with hotkey := hk }) :: rest
    else (k, w) :: dictSetHotkey rest name hk

/-- `PresetManager._save_presets`: writes the whole document; a write failure
(`writeOk = false`) is caught and logged inside the method, which therefore
never raises and returns nothing. -/
def save_presets_file (writeOk : Bool) (s : PresetManagerState) : PresetManagerState :=
  if writeOk then { s with file := some (s.current_preset, s.presets) } else s

/-- The `existing_hotkey` computed at the top of `save_preset`: the hotkey of
the preset already stored under `name`, or `""`. -/
def existing_hotkey_of (l : List (String × Preset)) (name : String) : String :=
  match dictFind l name with
  | some p => p.hotkey
  | none => ""

/-- `PresetManager.save_preset`: upsert preserving an existing hotkey unless
the settings dict carries one, then persist; returns `True` (nothing inside
the `try` block can raise, because `_save_presets` swallows its own errors). -/
def save_preset (writeOk : Bool) (s : PresetManagerState) (name : String)
    (settings : SettingsArg) : PresetManagerState × Bool :=
  let existing_hotkey := existing_hotkey_of s.presets name
  let entry : Preset :=
    { brightness := settings.brightness.getD 100
      contrast := settings.contrast.getD 100
      grayscale := settings.grayscale.getD 0
      rgb := settings.rgb.getD ⟨255, 255, 255⟩
      hotkey := settings.hotkey.getD existing_hotkey }
  (save_presets_file writeOk { s with presets := dictSet s.presets name entry }, true)

/-- `PresetManager.load_preset`: if the name exists, set it current, persist
and return (a copy of) its settings; otherwise change nothing and return
`None`. -/
def load_preset (writeOk : Bool) (s : PresetManagerState) (name : String) :
    PresetManagerState × Option Preset :=
  match dictFind s.presets name with
  | some p => (save_presets_file writeOk { s with current_preset := some name }, some p)
  | none => (s, none)

/-- `PresetManager.delete_preset`: remove the entry, clear `current_preset`
if it pointed at it, persist; `False` when the name is absent. -/
def delete_preset (writeOk : Bool) (s : PresetManagerState) (name : String) :
    PresetManagerState × Bool :=
  match dictFind s.presets name with
  | some _ =>
    let s1 := { s with presets := dictErase s.presets name }
    let s2 := if s1.current_preset = some name then { s1 with current_preset := none } else s1
    (save_presets_file writeOk s2, true)
  | none => (s, false)

/-- `PresetManager.get_preset_names`: keys in insertion order. -/
def get_preset_names (s : PresetManagerState) : List String := s.presets.map Prod.fst

/-- `PresetManager.switch_to_next_preset`: on an empty store return `None`;
with no (or a stale) current preset pick the first name, otherwise the
cyclic successor `(index + 1) % length` in insertion order; delegate to
`load_preset`. -/
def switch_to_next_preset (writeOk : Bool) (s : PresetManagerState) :
    PresetManagerState × Option Preset :=
  let preset_names := get_preset_names s
  match preset_names with
  | [] => (s, none)
  | n0 :: _ =>
    let next_name :=
      match s.current_preset with
      | none => n0
      | some c =>
        if preset_names.contains c then
          let current_index := preset_names.findIdx (fun x => x == c)
          preset_names.getD ((current_index + 1) % preset_names.length) ""
        else n0
    load_preset writeOk s next_name

/-- `PresetManager.set_preset_hotkey`: update the hotkey of an existing
preset and persist; `False` when the name is absent. -/
def set_preset_hotkey (writeOk : Bool) (s : PresetManagerState) (name hotkey : String) :
    PresetManagerState × Bool :=
  match dictFind s.presets name with
  | some _ => (save_presets_file writeOk { s with presets := dictSetHotkey s.presets name hotkey }, true)
  | none => (s, false)

/-- `PresetManager._create_default_presets`: the three built-in presets, in
insertion order, each with an empty hotkey. -/
def create_default_presets_list : List (String × Preset) :=
  [("默认", { brightness := 100, contrast := 100, grayscale := 0,
              rgb := ⟨255, 255, 255⟩, hotkey := "" }),
   ("夜间模式", { brightness := 80, contrast := 90, grayscale := 0,
                  rgb := ⟨255, 200, 150⟩, hotkey := "" }),
   ("阅读模式", { brightness := 110, contrast := 105, grayscale := 0,
                  rgb := ⟨255, 245, 230⟩, hotkey := "" })]

/-- The three ways `PresetManager._load_presets` can start: the file is
missing, reading/parsing it raised, or it yielded a document. -/
inductive LoadOutcome where
  | missing
  | failed
  | loaded (doc : PresetDoc)

/-- `PresetManager._load_presets` (constructor behavior): an existing document
is taken as-is; a missing file creates the defaults and saves them; a read
failure creates the defaults without saving (the unreadable on-disk content is
modeled as `none`). -/
def load_presets_init (writeOk : Bool) (o : LoadOutcome) : PresetManagerState :=
  match o with
  | .loaded d => { presets := d.2, current_preset := d.1, file := some d }
  | .missing =>
    save_presets_file writeOk
      { presets := create_default_presets_list, current_preset := some ("默认"), file := none }
  | .failed =>
    { presets := create_default_presets_list, current_preset := some ("默认"), file := none }

/-- In-memory state of `HotkeyManager`: the combo → callback dict; callbacks
are modeled as opaque identifiers. -/
structure HotkeyManagerState where
  hotkeys : List (String × ℕ)
deriving DecidableEq

/-- Membership test `key_combo in self._hotkeys`. -/
def hkContains (l : List (String × ℕ)) (combo : String) : Bool :=
  l.any (fun p => p.1 == combo)

/-- Python dict assignment for the hotkey dict. -/
def hkSet : List (String × ℕ) → String → ℕ → List (String × ℕ)
  | [], combo, cb => [(combo, cb)]
  | (k, w) :: rest, combo, cb =>
    if k = combo then (k, cb) :: rest else (k, w) :: hkSet rest combo cb

/-- `del self._hotkeys[key_combo]` (guarded by membership in the source;
erasing an absent key is the identity, so the guard is implicit here). -/
def hkErase : List (String × ℕ) → String → List (String × ℕ)
  | [], _ => []
  | (k, w) :: rest, combo => if k = combo then rest else (k, w) :: hkErase rest combo

/-- `HotkeyManager.unregister_hotkey`.  `removeOk` is whether the OS call
`keyboard.remove_hotkey` succeeds; when it raises, the `except` branch leaves
the dict untouched and returns `False`; on success the dict entry is deleted
and the method returns `True`. -/
def unregister_hotkey (removeOk : Bool) (s : HotkeyManagerState) (combo : String) :
    HotkeyManagerState × Bool :=
  if removeOk then ({ hotkeys := hkErase s.hotkeys combo }, true) else (s, false)

/-- `HotkeyManager.register_hotkey`.  `removeOk` / `addOk` are the outcomes of
the OS calls `keyboard.remove_hotkey` / `keyboard.add_hotkey`.  Source: if the
combo is already bound, call `unregister_hotkey` first (it catches its own
failure); then `keyboard.add_hotkey` — if it raises, the `except` branch
returns `False` with the dict as `unregister_hotkey` left it; on success the
dict records the new callback and the method returns `True`. -/
def register_hotkey (removeOk addOk : Bool) (s : HotkeyManagerState) (combo : String)
    (callback : ℕ) : HotkeyManagerState × Bool :=
  let s1 := if hkContains s.hotkeys combo then (unregister_hotkey removeOk s combo).1 else s
  if addOk then ({ hotkeys := hkSet s1.hotkeys combo callback }, true)
  else (s1, false)

/-- The modifier tokens recognized by `validate_hotkey`. -/
def valid_modifiers : List (List Char) :=
  [("ctrl").data, ("alt").data, ("shift").data, ("win").data, ("meta").data]

/-- Python `str.strip()` whitespace test (ASCII whitespace; the combos at play
are ASCII). -/
def pyIsSpace (c : Char) : Bool :=
  c = ' ' || c = '\t' || c = '\n' || c = '\r' || c = '\x0b' || c = '\x0c'

/-- Python `str.strip()`. -/
def pyStrip (l : List Char) : List Char :=
  ((l.dropWhile pyIsSpace).reverse.dropWhile pyIsSpace).reverse

/-- Python `str.lower()` (ASCII case mapping). -/
def pyLowerChar (c : Char) : Char :=
  if 'A' ≤ c && c ≤ 'Z' then Char.ofNat (c.toNat + 32) else c

/-- Python `str.lower()` on a token. -/
def pyLower (l : List Char) : List Char := l.map pyLowerChar

/-- Python `str.split('+')`: every `'+'` is a separator, empty pieces kept. -/
def splitPlus : List Char → List (List Char)
  | [] => [[]]
  | c :: rest =>
    match splitPlus rest with
    | [] => [[]]
    | t :: ts => if c = '+' then [] :: t :: ts else (c :: t) :: ts

/-- The `for part in parts[:-1]` loop of `validate_hotkey`: `none` models the
early `return False` on a non-modifier token; otherwise returns the final
`has_modifier` flag. -/
def modLoop : Bool → List (List Char) → Option Bool
  | has_modifier, [] => some has_modifier
  | _, p :: rest =>
    if valid_modifiers.contains (pyLower (pyStrip p)) then modLoop true rest else none

/-- `utils.validate_hotkey`. -/
def validate_hotkey (hotkey : String) : Bool :=
  if hotkey = "" then false
  else
    let parts := splitPlus hotkey.data
    if parts.length < 2 then false
    else
      match modLoop false parts.dropLast with
      | none => false
      | some has_modifier =>
        has_modifier && decide (0 < (pyStrip (parts.getLastD [])).length)

/-- Modelled from the spec: the arrow-key terminal tokens of the combo
grammar (§6). -/
def arrow_keys : List (List Char) :=
  [("up").data, ("down").data, ("left").data, ("right").data]

/-- Modelled from the spec: "final token is either a printable character or
one of up/down/left/right" — a printable character is read as a single
visible ASCII character (code points 0x21–0x7e). -/
def printable_char (t : List Char) : Bool :=
  match t with
  | [c] => decide (0x21 ≤ c.toNat) && decide (c.toNat ≤ 0x7e)
  | _ => false

/-- Modelled from the spec: the combo-string grammar of §6 / claim C9 —
at least two `+`-joined tokens, every non-final token a modifier
(case-insensitively), at least one modifier, and a non-empty final token that
is a printable character or an arrow key. -/
def combo_grammar (s : String) : Bool :=
  let tokens := splitPlus s.data
  decide (2 ≤ tokens.length) &&
  tokens.dropLast.all (fun t => valid_modifiers.contains (pyLower t)) &&
  tokens.dropLast.any (fun t => valid_modifiers.contains (pyLower t)) &&
  (let last := tokens.getLastD []
   decide (last ≠ []) && (printable_char last || arrow_keys.contains (pyLower last)))

/-- The store invariant of claim C8: a non-null `current_preset` always names
an existing preset. -/
def StoreInv (s : PresetManagerState) : Prop :=
  ∀ c, s.current_preset = some c → c ∈ get_preset_names s

/-- A concrete three-preset store with no current preset (presets inserted in
order P1, P2, P3), used to demonstrate the cyclic switching scenario. -/
def cyclicDemoStore : PresetManagerState :=
  { presets := [(("P1"), ⟨1, 1, 1, ⟨1, 1, 1⟩, ""⟩), (("P2"), ⟨2, 2, 2, ⟨2, 2, 2⟩, ""⟩),
                (("P3"), ⟨3, 3, 3, ⟨3, 3, 3⟩, ""⟩)],
    current_preset := none, file := none }

end GammaTool

namespace GammaTool

/-! ### Helper lemmas -/

theorem save_presets_file_presets (w : Bool) (s : PresetManagerState) :
    (save_presets_file w s).presets = s.presets := by
  simp only [save_presets_file]; split <;> rfl

theorem save_presets_file_current (w : Bool) (s : PresetManagerState) :
    (save_presets_file w s).current_preset = s.current_preset := by
  simp only [save_presets_file]; split <;> rfl

theorem dictFind_dictSet (l : List (String × Preset)) (k : String) (v : Preset) :
    dictFind (dictSet l k v) k = some v := by
  induction l with
  | nil => simp [dictSet, dictFind]
  | cons hd tl ih =>
    obtain ⟨k', v'⟩ := hd
    by_cases h : k' = k <;> simp [dictSet, dictFind, h, ih]

/-! ### Claim theorems -/

/-- C1: `reset_to_default` — with the capability flag false, the in-memory
settings are reset to the documented defaults and `False` is returned; with
the flag true, the settings are reset exactly when the hardware restore
succeeds (no saved default ramp, or a failing apply, leaves them unchanged
with `False`). -/
theorem reset_to_default_contract (applyOk : Bool) (e : GammaEngineState) :
    (e.gamma_ramp_supported = false →
       reset_to_default applyOk e =
         ({ e with current_brightness := 100, current_contrast := 100,
                   current_grayscale := 0, current_rgb := ⟨255, 255, 255⟩ }, false)) ∧
    (e.gamma_ramp_supported = true →
       (e.default_ramp = none → reset_to_default applyOk e = (e, false)) ∧
       (∀ rmp, e.default_ramp = some rmp →
          (applyOk = true →
             reset_to_default applyOk e =
               ({ e with current_brightness := 100, current_contrast := 100,
                         current_grayscale := 0, current_rgb := ⟨255, 255, 255⟩ }, true)) ∧
          (applyOk = false → reset_to_default applyOk e = (e, false)))) := by
  constructor
  · intro h; simp [reset_to_default, h]
  · intro h
    constructor
    · intro hd; simp [reset_to_default, h, hd]
    · intro rmp hd
      constructor <;> intro ha <;> simp [reset_to_default, h, hd, ha]

/-- Witness for C1: a concrete unsupported engine is reset to the defaults
and reports failure. -/
theorem reset_to_default_contract_witness :
    reset_to_default false ⟨50, 60, 70, ⟨1, 2, 3⟩, none, false⟩ =
      (⟨100, 100, 0, ⟨255, 255, 255⟩, none, false⟩, false) :=
  (reset_to_default_contract false ⟨50, 60, 70, ⟨1, 2, 3⟩, none, false⟩).1 rfl

/-- C2 counterexample: it is not true that a failed install always leaves the
mapping unchanged — when the combo is already bound and the OS unregister
succeeds, the previous binding is gone after the failed call (concretely:
mapping `[("c", 0)]`, re-registering `"c"` with a failing install empties the
mapping). -/
theorem register_hotkey_claim_counterexample :
    ¬ (∀ (removeOk : Bool) (s : HotkeyManagerState) (combo : String) (cb : ℕ),
        register_hotkey removeOk false s combo cb = (s, false)) :=
  fun h => absurd (h true ⟨[(("c"), 0)]⟩ ("c") 1) (by decide)

/-- C2 (amended): if the OS install fails, `register_hotkey` returns `False`;
the mapping is unchanged when the combo was not previously bound (or when the
preceding OS unregister also failed), but when the combo was bound and the
unregister succeeded, the previous binding has been removed. -/
theorem register_hotkey_failed_install (removeOk : Bool) (s : HotkeyManagerState)
    (combo : String) (cb : ℕ) :
    (register_hotkey removeOk false s combo cb).2 = false ∧
    (hkContains s.hotkeys combo = false →
       (register_hotkey removeOk false s combo cb).1 = s) ∧
    (removeOk = false → (register_hotkey removeOk false s combo cb).1 = s) ∧
    (hkContains s.hotkeys combo = true → removeOk = true →
       (register_hotkey removeOk false s combo cb).1.hotkeys = hkErase s.hotkeys combo) := by
  refine ⟨rfl, ?_, ?_, ?_⟩
  · intro h; simp [register_hotkey, h]
  · intro h; simp [register_hotkey, unregister_hotkey, h]
  · intro h1 h2; simp [register_hotkey, unregister_hotkey, h1, h2]

/-- Witness for C2's amended theorem: failed install on an unbound combo
leaves a concrete mapping unchanged. -/
theorem register_hotkey_failed_install_witness :
    (register_hotkey true false ⟨[(("c"), 0)]⟩ ("d") 1).1 = ⟨[(("c"), 0)]⟩ :=
  (register_hotkey_failed_install true ⟨[(("c"), 0)]⟩ ("d") 1).2.1 (by decide)

/-- C3 counterexample: `save_preset` does not return the write outcome — with
a failing persistence write it still returns `True` (concretely on the empty
store). -/
theorem save_preset_claim_counterexample :
    ¬ (∀ (writeOk : Bool) (s : PresetManagerState) (name : String) (settings : SettingsArg),
        (save_preset writeOk s name settings).2 = writeOk) :=
  fun h => absurd (h false ⟨[], none, none⟩ ("A") ⟨none, none, none, none, none⟩) (by decide)

/-- C3 (amended): `save_preset` upserts the preset in memory and attempts to
persist immediately, but returns `True` regardless of the write outcome (the
failure is swallowed inside `_save_presets`); the in-memory mapping holds the
new value, and the persisted file is updated exactly when the write
succeeds. -/
theorem save_preset_always_true (writeOk : Bool) (s : PresetManagerState) (name : String)
    (settings : SettingsArg) :
    (save_preset writeOk s name settings).2 = true ∧
    (∃ p : Preset,
       dictFind (save_preset writeOk s name settings).1.presets name = some p ∧
       p.brightness = settings.brightness.getD 100 ∧
       p.contrast = settings.contrast.getD 100 ∧
       p.grayscale = settings.grayscale.getD 0 ∧
       p.rgb = settings.rgb.getD ⟨255, 255, 255⟩ ∧
       p.hotkey = settings.hotkey.getD (existing_hotkey_of s.presets name)) ∧
    (writeOk = false → (save_preset writeOk s name settings).1.file = s.file) ∧
    (writeOk = true →
       (save_preset writeOk s name settings).1.file =
         some ((save_preset writeOk s name settings).1.current_preset,
               (save_preset writeOk s name settings).1.presets)) := by
  refine ⟨rfl,
    ⟨{ brightness := settings.brightness.getD 100
       contrast := settings.contrast.getD 100
       grayscale := settings.grayscale.getD 0
       rgb := settings.rgb.getD ⟨255, 255, 255⟩
       hotkey := settings.hotkey.getD (existing_hotkey_of s.presets name) },
     ?_, rfl, rfl, rfl, rfl, rfl⟩, ?_, ?_⟩
  · show dictFind (save_presets_file writeOk _).presets name = _
    rw [save_presets_file_presets]
    exact dictFind_dictSet ..
  · intro h; simp [save_preset, save_presets_file, h]
  · intro h; simp [save_preset, save_presets_file, h]

/-- Witness for C3's amended theorem: with a failing write on the empty store
the file content is unchanged (and the call still returned `True`). -/
theorem save_preset_always_true_witness :
    (save_preset false ⟨[], none, none⟩ ("A") ⟨none, none, none, none, none⟩).1.file =
      (⟨[], none, none⟩ : PresetManagerState).file :=
  (save_preset_always_true false ⟨[], none, none⟩ ("A") ⟨none, none, none, none, none⟩).2.2.1 rfl

end GammaTool

namespace GammaTool

/-! ### Zero-propagation lemmas for the float model -/

theorem fl_zero_num (nn : ℤ) (d : ℕ) (h : nn = 0) : fl ⟨nn, d⟩ = ⟨0, 1⟩ := by
  simp [fl, h]

theorem fl_mul_zero (a : Q) (d : ℕ) : fl (Qmul a ⟨0, d⟩) = ⟨0, 1⟩ := by
  simp [fl, Qmul]

theorem fl_zero_mul (a : Q) (d : ℕ) : fl (Qmul ⟨0, d⟩ a) = ⟨0, 1⟩ := by
  simp [fl, Qmul]

theorem clamp01_zero : clamp01 ⟨0, 1⟩ = ⟨0, 1⟩ := by decide

theorem pyInt_zero : pyInt ⟨0, 1⟩ = 0 := rfl

theorem fl_hundredths_hundred : fl ⟨100, 100⟩ = ⟨2 ^ 52, 2 ^ 52⟩ := by decide

/-- C5: with brightness 0, every ramp entry of every channel is 0, for any
contrast in [0,200], grayscale in [0,100] and channel values in [0,255]
(`value * brightness_factor` is exactly 0.0, the clamp keeps it, the 16-bit
base value is 0, and both the grayscale and direct branches scale 0). -/
theorem ramp_zero_brightness (contrast grayscale r g b : ℕ)
    (hc : contrast ≤ 200) (hg : grayscale ≤ 100)
    (hr : r ≤ 255) (hgr : g ≤ 255) (hb : b ≤ 255) (i : Fin 256) :
    rampPoint 0 contrast grayscale r g b i.val = (0, 0, 0) := by
  simp only [rampPoint]
  rw [show ((0 : ℕ) : ℤ) = 0 from rfl, fl_zero_num 0 100 rfl]
  simp only [fl_mul_zero, fl_zero_mul, clamp01_zero, pyInt_zero, ite_self]

/-- Witness for C5: concrete evaluation at contrast 200, grayscale 50,
rgb (10, 20, 30), index 7. -/
theorem ramp_zero_brightness_witness :
    rampPoint 0 200 50 10 20 30 7 = (0, 0, 0) :=
  ramp_zero_brightness 200 50 10 20 30 (by decide) (by decide) (by decide)
    (by decide) (by decide) 7

/-- C6: with grayscale 100, every ramp entry of every channel is 0, for any
brightness/contrast in [0,200] and channel values in [0,255] (the grayscale
branch multiplies the 16-bit base value by 1 - 100/100 = 0.0 before channel
scaling). -/
theorem ramp_full_grayscale (brightness contrast r g b : ℕ)
    (hbr : brightness ≤ 200) (hc : contrast ≤ 200)
    (hr : r ≤ 255) (hgr : g ≤ 255) (hb : b ≤ 255) (i : Fin 256) :
    rampPoint brightness contrast 100 r g b i.val = (0, 0, 0) := by
  simp only [rampPoint]
  rw [show ((100 : ℕ) : ℤ) = 100 from rfl, fl_hundredths_hundred]
  rw [if_pos (by decide)]
  rw [show Qsub ⟨1, 1⟩ ⟨2 ^ 52, 2 ^ 52⟩ = ⟨0, 2 ^ 52⟩ from by decide]
  rw [fl_zero_num _ _ rfl, fl_mul_zero, fl_zero_mul, pyInt_zero]
  rw [fl_zero_mul, fl_zero_mul]
  simp [pyInt_zero]

/-- Witness for C6: concrete evaluation at brightness 150, contrast 80,
rgb (255, 128, 64), index 9. -/
theorem ramp_full_grayscale_witness :
    rampPoint 150 80 100 255 128 64 9 = (0, 0, 0) :=
  ramp_full_grayscale 150 80 255 128 64 (by decide) (by decide) (by decide)
    (by decide) (by decide) 9

end GammaTool

namespace GammaTool

set_option maxRecDepth 10000 in
/-- C4 counterexample: under default settings the ramp is not exactly the
truncated identity — at index 1 the computed entry is 256 while
1 x 65535 / 255 = 257 (double rounding in `(value - 0.5) * 1.0 + 0.5`
loses the low mantissa bits of `1/255`). -/
theorem ramp_default_identity_counterexample :
    ¬ (∀ i : Fin 256,
        (rampPoint 100 100 0 255 255 255 i.val).1 = ((i.val * 65535) / 255 : ℕ)) :=
  fun h => absurd (h 1) (by decide)

set_option maxRecDepth 100000 in
set_option maxHeartbeats 4000000 in
/-- C4 (amended): under default settings every channel entry equals the
truncated identity value `i * 65535 / 255` or falls one below it (the
deviation caused by binary64 rounding), all three channels agree, and the
endpoints are exact: entry 0 is 0 and entry 255 is 65535. -/
theorem ramp_default_near_identity :
    (∀ i : Fin 256,
       rampPoint 100 100 0 255 255 255 i.val =
         ((((i.val * 65535) / 255 : ℕ) : ℤ), (((i.val * 65535) / 255 : ℕ) : ℤ),
          (((i.val * 65535) / 255 : ℕ) : ℤ)) ∨
       rampPoint 100 100 0 255 255 255 i.val =
         ((((i.val * 65535) / 255 : ℕ) : ℤ) - 1, (((i.val * 65535) / 255 : ℕ) : ℤ) - 1,
          (((i.val * 65535) / 255 : ℕ) : ℤ) - 1)) ∧
    rampPoint 100 100 0 255 255 255 0 = (0, 0, 0) ∧
    rampPoint 100 100 0 255 255 255 255 = (65535, 65535, 65535) := by
  decide

end GammaTool

namespace GammaTool

/-- C7: `switch_to_next_preset` on an empty store returns nothing; on a
non-empty store it delegates to `load_preset` on the first name (insertion
order) when no current preset is set or the current name is stale, and on the
cyclic successor `(index + 1) % length` otherwise; in particular, for presets
inserted in order P1, P2, P3 with no current preset, four successive calls
yield P1, P2, P3, P1 deterministically. -/
theorem switch_to_next_selection (w : Bool) (s : PresetManagerState) :
    (get_preset_names s = [] → switch_to_next_preset w s = (s, none)) ∧
    (∀ n0 rest, get_preset_names s = n0 :: rest →
       (s.current_preset = none → switch_to_next_preset w s = load_preset w s n0) ∧
       (∀ c, s.current_preset = some c → (get_preset_names s).contains c = false →
          switch_to_next_preset w s = load_preset w s n0) ∧
       (∀ c, s.current_preset = some c → (get_preset_names s).contains c = true →
          switch_to_next_preset w s =
            load_preset w s ((get_preset_names s).getD
              (((get_preset_names s).findIdx (fun x => x == c) + 1) %
                (get_preset_names s).length) ""))) ∧
    ((switch_to_next_preset w cyclicDemoStore).2 = some ⟨1, 1, 1, ⟨1, 1, 1⟩, ""⟩ ∧
     (switch_to_next_preset w
         (switch_to_next_preset w cyclicDemoStore).1).2 = some ⟨2, 2, 2, ⟨2, 2, 2⟩, ""⟩ ∧
     (switch_to_next_preset w (switch_to_next_preset w
         (switch_to_next_preset w cyclicDemoStore).1).1).2 = some ⟨3, 3, 3, ⟨3, 3, 3⟩, ""⟩ ∧
     (switch_to_next_preset w (switch_to_next_preset w (switch_to_next_preset w
         (switch_to_next_preset w cyclicDemoStore).1).1).1).2 =
         some ⟨1, 1, 1, ⟨1, 1, 1⟩, ""⟩) := by
  refine ⟨?_, ?_, ?_⟩
  · intro h; simp only [switch_to_next_preset, h]
  · intro n0 rest h
    refine ⟨?_, ?_, ?_⟩
    · intro hc; simp only [switch_to_next_preset, h, hc]
    · intro c hc hcon
      rw [h] at hcon
      simp only [switch_to_next_preset, h, hc]
      rw [if_neg (by simpa using hcon)]
    · intro c hc hcon
      rw [h] at hcon
      simp only [switch_to_next_preset, h, hc]
      rw [if_pos hcon]
  · cases w <;> decide

end GammaTool

namespace GammaTool

/-! ### Helper lemmas for the store invariant -/

theorem get_preset_names_save_presets_file (w : Bool) (s : PresetManagerState) :
    get_preset_names (save_presets_file w s) = get_preset_names s := by
  simp [get_preset_names, save_presets_file_presets]

theorem dictFind_some_mem (l : List (String × Preset)) (nm : String) (p : Preset)
    (h : dictFind l nm = some p) : nm ∈ l.map Prod.fst := by
  induction l with
  | nil => simp [dictFind] at h
  | cons hd tl ih =>
    obtain ⟨k, v⟩ := hd
    by_cases hk : k = nm
    · simp [hk]
    · simp only [dictFind, if_neg hk] at h
      simp [ih h]

theorem mem_keys_dictFind (l : List (String × Preset)) (a : String)
    (h : a ∈ l.map Prod.fst) : ∃ p, dictFind l a = some p := by
  induction l with
  | nil => simp at h
  | cons hd tl ih =>
    obtain ⟨k, v⟩ := hd
    by_cases hk : k = a
    · exact ⟨v, by simp [dictFind, hk]⟩
    · simp only [List.map_cons, List.mem_cons] at h
      rcases h with h | h
      · exact absurd h.symm hk
      · obtain ⟨p, hp⟩ := ih h
        exact ⟨p, by simp [dictFind, hk, hp]⟩

theorem mem_keys_dictSet (l : List (String × Preset)) (k : String) (v : Preset)
    (a : String) (h : a ∈ l.map Prod.fst) : a ∈ (dictSet l k v).map Prod.fst := by
  induction l with
  | nil => simp at h
  | cons hd tl ih =>
    obtain ⟨k', v'⟩ := hd
    by_cases hk : k' = k
    · simpa [dictSet, hk] using h
    · simp only [List.map_cons, List.mem_cons] at h
      simp only [dictSet, if_neg hk, List.map_cons, List.mem_cons]
      rcases h with h | h
      · exact Or.inl h
      · exact Or.inr (ih h)

theorem keys_dictSetHotkey (l : List (String × Preset)) (nm hk : String) :
    (dictSetHotkey l nm hk).map Prod.fst = l.map Prod.fst := by
  induction l with
  | nil => rfl
  | cons hd tl ih =>
    obtain ⟨k, v⟩ := hd
    by_cases h : k = nm <;> simp [dictSetHotkey, h, ih]

theorem mem_keys_dictErase (l : List (String × Preset)) (nm a : String)
    (h : a ∈ l.map Prod.fst) (hne : a ≠ nm) : a ∈ (dictErase l nm).map Prod.fst := by
  induction l with
  | nil => simp at h
  | cons hd tl ih =>
    obtain ⟨k, v⟩ := hd
    by_cases hk : k = nm
    · simp only [List.map_cons, List.mem_cons] at h
      rcases h with h | h
      · exact absurd (h.trans hk) hne
      · simpa [dictErase, hk] using h
    · simp only [List.map_cons, List.mem_cons] at h
      simp only [dictErase, if_neg hk, List.map_cons, List.mem_cons]
      rcases h with h | h
      · exact Or.inl h
      · exact Or.inr (ih h)

theorem StoreInv_load (w : Bool) (s : PresetManagerState) (nm : String)
    (hs : StoreInv s) : StoreInv (load_preset w s nm).1 := by
  unfold load_preset
  cases hd : dictFind s.presets nm with
  | none => exact hs
  | some p =>
    intro c hc
    rw [save_presets_file_current] at hc
    simp at hc
    rw [get_preset_names_save_presets_file]
    subst hc
    simpa [get_preset_names] using dictFind_some_mem _ _ _ hd

end GammaTool

namespace GammaTool

/-- Witness for C7: on a concrete empty store, switching returns nothing. -/
theorem switch_to_next_selection_witness :
    switch_to_next_preset true ⟨[], none, none⟩ = (⟨[], none, none⟩, none) :=
  (switch_to_next_selection true ⟨[], none, none⟩).1 rfl

theorem StoreInv_save_presets_file (w : Bool) (s : PresetManagerState)
    (h : StoreInv s) : StoreInv (save_presets_file w s) := by
  intro c hc
  rw [save_presets_file_current] at hc
  rw [get_preset_names_save_presets_file]
  exact h c hc

theorem StoreInv_dictSet (s : PresetManagerState) (name : String) (entry : Preset)
    (h : StoreInv s) : StoreInv { s with presets := dictSet s.presets name entry } := by
  intro c hc
  have hc' : s.current_preset = some c := hc
  show c ∈ (dictSet s.presets name entry).map Prod.fst
  exact mem_keys_dictSet _ _ _ _ (h c hc')

/-- C8: whenever `current_preset` is non-null it names an existing preset —
the invariant is preserved by save, load, delete, set-hotkey and switch;
`load_preset` sets `current_preset` only to an existing name, save and
set-hotkey never change it, and deleting the current preset clears it to
null. -/
theorem store_invariant_preserved (w : Bool) (s : PresetManagerState) (hs : StoreInv s) :
    (∀ name a, StoreInv (save_preset w s name a).1) ∧
    (∀ name, StoreInv (load_preset w s name).1) ∧
    (∀ name, StoreInv (delete_preset w s name).1) ∧
    (∀ name hk, StoreInv (set_preset_hotkey w s name hk).1) ∧
    StoreInv (switch_to_next_preset w s).1 ∧
    (∀ name, (load_preset w s name).1.current_preset = some name →
       name ∈ get_preset_names s) ∧
    (∀ name a, (save_preset w s name a).1.current_preset = s.current_preset) ∧
    (∀ name hk, (set_preset_hotkey w s name hk).1.current_preset = s.current_preset) ∧
    (∀ name, s.current_preset = some name →
       (delete_preset w s name).1.current_preset = none) := by
  refine ⟨?_, ?_, ?_, ?_, ?_, ?_, ?_, ?_, ?_⟩
  · intro name a
    exact StoreInv_save_presets_file _ _ (StoreInv_dictSet _ _ _ hs)
  · intro name
    exact StoreInv_load w s name hs
  · intro name
    cases hd : dictFind s.presets name with
    | none => simpa [delete_preset, hd] using hs
    | some p =>
      simp only [delete_preset, hd]
      apply StoreInv_save_presets_file
      split
      · intro c hc
        simp at hc
      · rename_i hcond
        intro c hc
        have hc' : s.current_preset = some c := hc
        have hcn : c ≠ name := fun h => hcond (h ▸ hc')
        show c ∈ (dictErase s.presets name).map Prod.fst
        exact mem_keys_dictErase _ _ _ (hs c hc') hcn
  · intro name hk
    cases hd : dictFind s.presets name with
    | none => simpa [set_preset_hotkey, hd] using hs
    | some p =>
      simp only [set_preset_hotkey, hd]
      apply StoreInv_save_presets_file
      intro c hc
      have hc' : s.current_preset = some c := hc
      show c ∈ (dictSetHotkey s.presets name hk).map Prod.fst
      rw [keys_dictSetHotkey]
      exact hs c hc'
  · cases hnames : get_preset_names s with
    | nil => simpa [switch_to_next_preset, hnames] using hs
    | cons n0 rest =>
      simp only [switch_to_next_preset, hnames]
      exact StoreInv_load w s _ hs
  · intro name hc
    cases hd : dictFind s.presets name with
    | some p => simpa [get_preset_names] using dictFind_some_mem _ _ _ hd
    | none =>
      simp only [load_preset, hd] at hc
      exact hs name hc
  · intro name a
    simp [save_preset, save_presets_file_current]
  · intro name hk
    cases hd : dictFind s.presets name with
    | none => simp [set_preset_hotkey, hd]
    | some p => simp [set_preset_hotkey, hd, save_presets_file_current]
  · intro name hcur
    obtain ⟨p, hp⟩ :=
      mem_keys_dictFind s.presets name (by simpa [get_preset_names] using hs name hcur)
    simp [delete_preset, hp, save_presets_file_current, hcur]

/-- Witness for C8: the invariant holds after loading P2 on the concrete
three-preset store (whose invariant holds vacuously). -/
theorem store_invariant_preserved_witness :
    StoreInv (load_preset true cyclicDemoStore ("P2")).1 :=
  (store_invariant_preserved true cyclicDemoStore
    (fun c hc => absurd hc (by simp [cyclicDemoStore]))).2.1 ("P2")

end GammaTool

namespace GammaTool

theorem modLoop_spec (l : List (List Char)) (b : Bool) :
    modLoop b l =
      (if l.all (fun p => valid_modifiers.contains (pyLower (pyStrip p))) then
        some (b || !l.isEmpty) else none) := by
  induction l generalizing b with
  | nil => simp [modLoop]
  | cons p rest ih =>
    by_cases h : valid_modifiers.contains (pyLower (pyStrip p)) = true
    · simp [modLoop, h, ih, ite_and]
    · have h' : pyLower (pyStrip p) ∉ valid_modifiers := by simpa using h
      simp [modLoop, h, h', ite_and]

/-- C9 counterexample: the validator is not exactly the spec grammar — it
accepts `"ctrl+foobar"` although `foobar` is neither a printable character
nor an arrow key, so the grammar of §6 rejects it. -/
theorem validate_hotkey_grammar_counterexample :
    validate_hotkey ("ctrl+foobar") = true ∧ combo_grammar ("ctrl+foobar") = false := by
  constructor <;> decide

/-- C9 (amended): the validator returns true exactly for strings with at
least two `+`-joined tokens, every non-final token a modifier in
ctrl/alt/shift/win/meta (case-insensitively, whitespace-trimmed), and a
final token that is non-empty after trimming — any such final token is
accepted, not only printable single characters or arrow keys; in particular
`"n"` and `"ctrl+"` are rejected and `"ctrl+alt+n"` is accepted. -/
theorem validate_hotkey_characterization :
    (∀ s : String,
       validate_hotkey s = true ↔
         (2 ≤ (splitPlus s.data).length ∧
          (∀ p ∈ (splitPlus s.data).dropLast,
             valid_modifiers.contains (pyLower (pyStrip p)) = true) ∧
          pyStrip ((splitPlus s.data).getLastD []) ≠ [])) ∧
    validate_hotkey ("n") = false ∧
    validate_hotkey ("ctrl+") = false ∧
    validate_hotkey ("ctrl+alt+n") = true := by
  refine ⟨?_, by decide, by decide, by decide⟩
  intro s
  unfold validate_hotkey
  by_cases hs : s = ""
  · subst hs
    constructor
    · intro h; simp at h
    · rintro ⟨h1, -, -⟩
      exact absurd h1 (by decide)
  · rw [if_neg hs]
    by_cases hlen : (splitPlus s.data).length < 2
    · rw [if_pos hlen]
      constructor
      · intro h; exact absurd h (by simp)
      · rintro ⟨h1, -, -⟩; omega
    · rw [if_neg hlen]
      rw [modLoop_spec]
      by_cases hall :
          (splitPlus s.data).dropLast.all
            (fun p => valid_modifiers.contains (pyLower (pyStrip p))) = true
      · rw [if_pos hall]
        have hne : ((splitPlus s.data).dropLast).isEmpty = false := by
          cases hsp : splitPlus s.data with
          | nil => rw [hsp] at hlen; simp at hlen
          | cons a t =>
            cases t with
            | nil => rw [hsp] at hlen; simp at hlen
            | cons c u => simp
        rw [hne]
        simp only [Bool.not_false, Bool.or_true, Bool.true_and]
        constructor
        · intro h
          refine ⟨by omega, fun p hp => (List.all_eq_true.mp hall) p hp, ?_⟩
          intro hemp
          rw [hemp] at h
          simp at h
        · rintro ⟨-, -, h3⟩
          simpa using List.length_pos.mpr h3
      · rw [if_neg hall]
        constructor
        · intro h; simp at h
        · rintro ⟨-, h2, -⟩
          exact absurd (List.all_eq_true.mpr h2) hall

/-- Witness for C9's amended theorem: `"ctrl+shift+x"` satisfies the
characterization, hence the validator accepts it. -/
theorem validate_hotkey_characterization_witness :
    validate_hotkey ("ctrl+shift+x") = true :=
  (validate_hotkey_characterization.1 ("ctrl+shift+x")).mpr (by decide)

/-- C10: on a fresh start (presets file missing) and likewise when loading
the file fails, the store holds exactly the three built-in presets, in
insertion order 默认 (100/100/0, rgb 255/255/255), 夜间模式 (80/90/0, rgb
255/200/150), 阅读模式 (110/105/0, rgb 255/245/230), each with an empty
hotkey, with 默认 current; listing names returns the three names and the
first switch-to-next selects the second preset (夜间模式). -/
theorem default_presets_on_fresh_start :
    ∀ w : Bool,
      ((load_presets_init w .missing).presets =
         [(("默认"), { brightness := 100, contrast := 100, grayscale := 0,
                       rgb := ⟨255, 255, 255⟩, hotkey := "" }),
          (("夜间模式"), { brightness := 80, contrast := 90, grayscale := 0,
                           rgb := ⟨255, 200, 150⟩, hotkey := "" }),
          (("阅读模式"), { brightness := 110, contrast := 105, grayscale := 0,
                           rgb := ⟨255, 245, 230⟩, hotkey := "" })] ∧
       (load_presets_init w .missing).current_preset = some ("默认") ∧
       get_preset_names (load_presets_init w .missing) =
         [("默认"), ("夜间模式"), ("阅读模式")] ∧
       (switch_to_next_preset w (load_presets_init w .missing)).2 =
         some { brightness := 80, contrast := 90, grayscale := 0,
                rgb := ⟨255, 200, 150⟩, hotkey := "" } ∧
       (switch_to_next_preset w (load_presets_init w .missing)).1.current_preset =
         some ("夜间模式")) ∧
      ((load_presets_init w .failed).presets =
         [(("默认"), { brightness := 100, contrast := 100, grayscale := 0,
                       rgb := ⟨255, 255, 255⟩, hotkey := "" }),
          (("夜间模式"), { brightness := 80, contrast := 90, grayscale := 0,
                           rgb := ⟨255, 200, 150⟩, hotkey := "" }),
          (("阅读模式"), { brightness := 110, contrast := 105, grayscale := 0,
                           rgb := ⟨255, 245, 230⟩, hotkey := "" })] ∧
       (load_presets_init w .failed).current_preset = some ("默认") ∧
       get_preset_names (load_presets_init w .failed) =
         [("默认"), ("夜间模式"), ("阅读模式")] ∧
       (switch_to_next_preset w (load_presets_init w .failed)).2 =
         some { brightness := 80, contrast := 90, grayscale := 0,
                rgb := ⟨255, 200, 150⟩, hotkey := "" } ∧
       (switch_to_next_preset w (load_presets_init w .failed)).1.current_preset =
         some ("夜间模式")) := by
  intro w
  cases w <;> exact ⟨⟨rfl, rfl, rfl, by decide, by decide⟩, ⟨rfl, rfl, rfl, by decide, by decide⟩⟩

end GammaTool
